import Mathlib

/-!
Verification of the SQL-operation gateway of `mcp-server-sqlite`
(source: `src/index.ts`).

The development shallowly embeds the gateway's pure logic:

* `validateSqlQuery` — the SQL classifier (src/index.ts lines 73–101).
  The three "dangerous" regexes and the five read-only regexes are
  translated character-by-character; in particular the JS backtracking
  semantics of `\s+` before a negative lookahead is kept (a pattern such
  as `pragma\s+(?!table_info|…)` matches whenever *some* nonempty
  whitespace split puts a non-allow-listed continuation after it).
* the tool handlers (query, execute, describe-table, list-tables,
  create-table, drop-table, insert-record, update-record, delete-record,
  transaction) as total functions over an abstract driver interface.
  The embedded database engine (better-sqlite3) is out of scope and is
  represented by a `Drv` record of prepare/bind/execute operations; the
  driver's documented transaction machinery (roll back every statement of
  the batch when the wrapped function throws) is modelled by returning
  the initial state on failure.

JS specifics kept by the embedding: `trim().toLowerCase()` is modelled
with the JS whitespace class (`isWsChar`, the ASCII and Unicode members
of `\s`) and ASCII lowercasing; the regex `.` excludes the JS line
terminators (`isLineTerm`); JS truthiness of an optional string
(`if (col.defaultValue)`) is `jsTruthyStr`.
-/

namespace McpSqlite

/-! ## JS character classes -/

/-- The JS regex class `\s` (also the characters `String.prototype.trim`
removes): ASCII whitespace plus the Unicode space characters. -/
def isWsChar (c : Char) : Bool :=
  c = ' ' || c = '\t' || c = '\n' || c = '\r' || c = '\x0b' || c = '\x0c' ||
  c.toNat = 0xa0 || c.toNat = 0x1680 || (0x2000 <= c.toNat && c.toNat <= 0x200a) ||
  c.toNat = 0x2028 || c.toNat = 0x2029 || c.toNat = 0x202f || c.toNat = 0x205f ||
  c.toNat = 0x3000 || c.toNat = 0xfeff

/-- The JS line terminators, which the regex dot does not match. -/
def isLineTerm (c : Char) : Bool :=
  c = '\n' || c = '\r' || c.toNat = 0x2028 || c.toNat = 0x2029

/-- `String.prototype.trim`: strip `isWsChar` characters from both ends. -/
def jsTrim (s : List Char) : List Char :=
  ((s.dropWhile isWsChar).reverse.dropWhile isWsChar).reverse

/-- `String.prototype.toLowerCase`, restricted to its ASCII action
(the SQL keywords the validator looks for are ASCII). -/
def jsToLower (s : List Char) : List Char :=
  s.map Char.toLower

/-- `sql.trim().toLowerCase()` from `validateSqlQuery`. -/
def normalize (sql : String) : List Char :=
  jsToLower (jsTrim sql.data)

/-! ## Regex scanners

Each JS regex of `validateSqlQuery` becomes a boolean scanner over
`List Char`, written so that a position/split exists exactly when the
backtracking regex engine finds a match. -/

/-- Boolean literal-prefix test (self-contained decidable version). -/
def litPre : List Char → List Char → Bool
  | [], _ => true
  | _ :: _, [] => false
  | a :: as, b :: bs => a == b && litPre as bs

def pragmaLit : List Char := "pragma".data
def tableInfoLit : List Char := "table_info".data
def schemaVersionLit : List Char := "schema_version".data
def userVersionLit : List Char := "user_version".data
def attachLit : List Char := "attach".data
def detachLit : List Char := "detach".data
def databaseLit : List Char := "database".data
def selectLit : List Char := "select".data
def withLit : List Char := "with".data

/-- The alternation inside the negative lookahead
`(?!table_info|schema_version|user_version)`: does one of the three
allow-listed pragma names start here? -/
def allowedFollows (t : List Char) : Bool :=
  litPre tableInfoLit t || litPre schemaVersionLit t || litPre userVersionLit t

/-- After at least one whitespace character has been consumed: can the
engine stop consuming whitespace (possibly after more `\s`) at a point
where the negative lookahead succeeds? -/
def afterWsNotAllowed : List Char → Bool
  | [] => !allowedFollows []
  | c :: rest => !allowedFollows (c :: rest) || (isWsChar c && afterWsNotAllowed rest)

/-- `\s+(?!table_info|schema_version|user_version)` at this position. -/
def wsPlusNotAllowed : List Char → Bool
  | [] => false
  | c :: rest => isWsChar c && afterWsNotAllowed rest

/-- After at least one whitespace character: match `lit`, possibly after
consuming further whitespace. -/
def afterWsLit (lit : List Char) : List Char → Bool
  | [] => litPre lit []
  | c :: rest => litPre lit (c :: rest) || (isWsChar c && afterWsLit lit rest)

/-- `\s+lit` at this position (backtracking over the `\s+` length). -/
def wsPlusLit (lit : List Char) : List Char → Bool
  | [] => false
  | c :: rest => isWsChar c && afterWsLit lit rest

/-- Unanchored search: does `p` match at some position of `t`
(the end-of-string position included, as for a JS regex)? -/
def anyPos (p : List Char → Bool) : List Char → Bool
  | [] => p []
  | c :: rest => p (c :: rest) || anyPos p rest

/-- `pragma\s+(?!table_info|schema_version|user_version)` at this position. -/
def pragmaBadAt (t : List Char) : Bool :=
  litPre pragmaLit t && wsPlusNotAllowed (t.drop 6)

/-- `attach\s+database` at this position. -/
def attachBadAt (t : List Char) : Bool :=
  litPre attachLit t && wsPlusLit databaseLit (t.drop 6)

/-- `detach\s+database` at this position. -/
def detachBadAt (t : List Char) : Bool :=
  litPre detachLit t && wsPlusLit databaseLit (t.drop 6)

/-- The `dangerousPatterns` loop of `validateSqlQuery`: one of the three
unanchored regexes matches the normalized text. -/
def dangerousCheck (t : List Char) : Bool :=
  anyPos pragmaBadAt t || anyPos attachBadAt t || anyPos detachBadAt t

/-- A single `\s` right after a literal: the head of the rest is whitespace. -/
def headWs : List Char → Bool
  | [] => false
  | c :: _ => isWsChar c

/-- `^select\s` (tested at position 0). -/
def selectAt (t : List Char) : Bool :=
  litPre selectLit t && headWs (t.drop 6)

/-- The `.*select\s` part of `^with\s.*select\s`: skip any number of
non-line-terminator characters, then match `select\s`. -/
def scanSelect : List Char → Bool
  | [] => false
  | c :: rest => selectAt (c :: rest) || (!isLineTerm c && scanSelect rest)

/-- `^with\s.*select\s` (tested at position 0). -/
def withSelectAt (t : List Char) : Bool :=
  litPre withLit t &&
    (match t.drop 4 with
     | [] => false
     | c :: rest => isWsChar c && scanSelect rest)

/-- `^pragma\s+name` (tested at position 0). -/
def pragmaReadAt (name : List Char) (t : List Char) : Bool :=
  litPre pragmaLit t && wsPlusLit name (t.drop 6)

/-- The `readOnlyPatterns.some(...)` test of `validateSqlQuery`. -/
def readOnlyCheck (t : List Char) : Bool :=
  selectAt t || withSelectAt t ||
  pragmaReadAt tableInfoLit t || pragmaReadAt schemaVersionLit t ||
  pragmaReadAt userVersionLit t

/-- The record `{ isValid, isReadOnly, error? }` returned by
`validateSqlQuery`. -/
structure SqlValidation where
  isValid : Bool
  isReadOnly : Bool
  error : Option String
deriving DecidableEq, Repr

/-- `validateSqlQuery` (src/index.ts lines 73–101): normalize, reject on a
dangerous pattern, otherwise classify by the read-only prefix patterns. -/
def validateSqlQuery (sql : String) : SqlValidation :=
  if dangerousCheck (normalize sql) then
    { isValid := false, isReadOnly := false, error := some "Dangerous SQL operation detected" }
  else
    { isValid := true, isReadOnly := readOnlyCheck (normalize sql), error := none }

/-! ## Declarative split predicates

The declarative counterparts of the scanners: a pattern matches iff the
text decomposes into explicit pieces.  These are the statements the
specification makes in words; the scanner-correctness lemmas below tie
them to the embedded code. -/

/-- Every character of `ws` is JS whitespace. -/
def AllWs (ws : List Char) : Prop := ∀ c ∈ ws, isWsChar c = true

/-- Somewhere in `t`: `pragma`, one or more whitespace characters, then a
continuation that does not start with an allow-listed pragma name. -/
def SpecPragmaBad (t : List Char) : Prop :=
  ∃ a ws r, t = a ++ pragmaLit ++ ws ++ r ∧ ws ≠ [] ∧ AllWs ws ∧ allowedFollows r = false

/-- Somewhere in `t`: `attach`, whitespace, `database`. -/
def SpecAttachBad (t : List Char) : Prop :=
  ∃ a ws r, t = a ++ attachLit ++ ws ++ databaseLit ++ r ∧ ws ≠ [] ∧ AllWs ws

/-- Somewhere in `t`: `detach`, whitespace, `database`. -/
def SpecDetachBad (t : List Char) : Prop :=
  ∃ a ws r, t = a ++ detachLit ++ ws ++ databaseLit ++ r ∧ ws ≠ [] ∧ AllWs ws

/-- `t` matches one of the three disallowed patterns. -/
def SpecDanger (t : List Char) : Prop :=
  SpecPragmaBad t ∨ SpecAttachBad t ∨ SpecDetachBad t

/-- `t` starts with `select` followed by a whitespace character. -/
def SpecSelect (t : List Char) : Prop :=
  ∃ c r, t = selectLit ++ c :: r ∧ isWsChar c = true

/-- `t` starts with `with`, a whitespace character, then — with no line
terminator in between — `select` followed by whitespace. -/
def SpecWithSelect (t : List Char) : Prop :=
  ∃ c mid c2 r, t = withLit ++ c :: (mid ++ selectLit ++ c2 :: r) ∧
    isWsChar c = true ∧ (∀ x ∈ mid, isLineTerm x = false) ∧ isWsChar c2 = true

/-- `t` starts with `pragma`, whitespace, then `name`. -/
def SpecPragmaRead (name : List Char) (t : List Char) : Prop :=
  ∃ ws r, t = pragmaLit ++ ws ++ name ++ r ∧ ws ≠ [] ∧ AllWs ws

/-- `t` matches one of the five read-only prefix patterns. -/
def SpecReadOnly (t : List Char) : Prop :=
  SpecSelect t ∨ SpecWithSelect t ∨ SpecPragmaRead tableInfoLit t ∨
  SpecPragmaRead schemaVersionLit t ∨ SpecPragmaRead userVersionLit t

/-! ## Response envelope, driver interface and tool handlers -/

/-- Structured JSON payloads: the value the handlers pass to
`JSON.stringify` for a success content block (its byte-level rendering is
boundary formatting and stays out of the model). -/
inductive J where
  | s (v : String)
  | i (v : Int)
  | b (v : Bool)
  | null
  | arr (xs : List J)
  | obj (fields : List (String × J))

/-- One content block plus the `isError` flag: the uniform response
envelope every tool returns. -/
structure ToolResponse where
  content : J
  isError : Bool

/-- `handleDatabaseError` (src/index.ts lines 104–115): a text block
`Database error: <message>` with `isError: true`. -/
def errEnv (msg : String) : ToolResponse :=
  { content := .s ("Database error: " ++ msg), isError := true }

/-- A success payload (`isError` absent/false). -/
def okEnv (payload : J) : ToolResponse :=
  { content := payload, isError := false }

/-- The change summary `better-sqlite3` returns from `.run()`. -/
structure RunInfo where
  changes : Int
  lastInsertRowid : Int

/-- The prepare/bind/execute interface of the embedded engine
(better-sqlite3), abstracted over the database state `σ`; the engine
itself is a black box (spec §1).  `run` is `prepare(sql).run(params)`,
`all` is `prepare(sql).all(params)`, `get` is `prepare(sql).get(params)`.
Reads do not change the state (SQLite read semantics); an `Except.error`
is a driver exception. -/
structure Drv (σ : Type) where
  run : σ → String → List J → Except String (σ × RunInfo)
  all : σ → String → List J → Except String (List J)
  get : σ → String → List J → Except String (Option J)

/-- Result of a tool invocation that returned normally: final database
state, the trace of `(sql, boundParams)` handed to `database.prepare`,
and the response envelope.  A handler that lets an exception escape
produces `Except.error` instead. -/
structure Out (σ : Type) where
  state : σ
  trace : List (String × List J)
  resp : ToolResponse

/-- JS `a || b` on a string-or-undefined: the empty string is falsy. -/
def jsOrStr (a : Option String) (b : String) : String :=
  match a with
  | some s => if s = "" then b else s
  | none => b

/-- JS truthiness of an optional string (`if (col.defaultValue)`). -/
def jsTruthyStr : Option String → Bool
  | none => false
  | some v => !(v == "")

/-- JS truthiness of a JSON value. -/
def jTruthy : J → Bool
  | .null => false
  | .b v => v
  | .i v => !(v == 0)
  | .s v => !(v == "")
  | .arr _ => true
  | .obj _ => true

/-- JS property access `row.field` on a driver row (absent fields give a
falsy value, modelled by `null`). -/
def jGet (j : J) (k : String) : J :=
  match j with
  | .obj fs => ((fs.lookup k).getD .null)
  | _ => .null

/-- JS template-literal coercion of a field value to text (arrays and
nested objects do not occur in the pragma rows this formats). -/
def jToStr : J → String
  | .s v => v
  | .i v => toString v
  | .b true => "true"
  | .b false => "false"
  | .null => "null"
  | .arr _ => ""
  | .obj _ => "[object Object]"

/-- One line of `formatTableInfo` (src/index.ts lines 67–71). -/
def formatColumn (col : J) : String :=
  jToStr (jGet col "name") ++ ": " ++ jToStr (jGet col "type") ++
  (if jTruthy (jGet col "notnull") then " NOT NULL" else "") ++
  (if jTruthy (jGet col "pk") then " PRIMARY KEY" else "") ++
  (if jTruthy (jGet col "dflt_value") then " DEFAULT " ++ jToStr (jGet col "dflt_value") else "")

/-- `formatTableInfo` (src/index.ts lines 67–71). -/
def formatTableInfo (columns : List J) : String :=
  String.intercalate "\n" (columns.map formatColumn)

/-- The `query` tool handler (src/index.ts lines 249–282): validate,
refuse non-read-only text, else `prepare(sql).all()`.  The whole body is
inside `try`, so every branch returns an envelope. -/
def queryTool {σ} (d : Drv σ) (conn : Except String Unit) (σ0 : σ) (sql : String) :
    Except String (Out σ) :=
  let v := validateSqlQuery sql
  if !v.isValid then
    .ok ⟨σ0, [], errEnv (jsOrStr v.error "Invalid SQL")⟩
  else if !v.isReadOnly then
    .ok ⟨σ0, [], errEnv "Only read-only queries are allowed. Use 'execute' tool for write operations."⟩
  else
    match conn with
    | .error e => .ok ⟨σ0, [], errEnv e⟩
    | .ok _ =>
      match d.all σ0 sql [] with
      | .error e => .ok ⟨σ0, [(sql, [])], errEnv e⟩
      | .ok rows => .ok ⟨σ0, [(sql, [])], okEnv (.arr rows)⟩

/-- The `execute` tool handler (src/index.ts lines 285–318): validate
(any non-rejected text passes), then `prepare(sql).run()`. -/
def executeTool {σ} (d : Drv σ) (conn : Except String Unit) (σ0 : σ) (sql : String) :
    Except String (Out σ) :=
  let v := validateSqlQuery sql
  if !v.isValid then
    .ok ⟨σ0, [], errEnv (jsOrStr v.error "Invalid SQL")⟩
  else
    match conn with
    | .error e => .ok ⟨σ0, [], errEnv e⟩
    | .ok _ =>
      match d.run σ0 sql [] with
      | .error e => .ok ⟨σ0, [(sql, [])], errEnv e⟩
      | .ok (σ1, info) =>
        .ok ⟨σ1, [(sql, [])], okEnv (.obj [
          ("changes", .i info.changes),
          ("lastInsertRowid", .i info.lastInsertRowid),
          ("message", .s ("Statement executed successfully. " ++ toString info.changes ++ " row(s) affected."))])⟩

/-- The template literal of the `describe-table` existence check
(src/index.ts lines 335–338), whitespace included. -/
def masterLookupSql : String :=
  "\n          SELECT name FROM sqlite_master\n          WHERE type='table' AND name=?\n        "

def tableInfoSql (tableName : String) : String := "PRAGMA table_info(" ++ tableName ++ ")"
def indexListSql (tableName : String) : String := "PRAGMA index_list(" ++ tableName ++ ")"
def foreignKeyListSql (tableName : String) : String := "PRAGMA foreign_key_list(" ++ tableName ++ ")"

/-- The `describe-table` tool handler (src/index.ts lines 321–367): a
parameter-bound `sqlite_master` lookup first; only when it finds the
table are the three introspection pragmas run. -/
def describeTable {σ} (d : Drv σ) (conn : Except String Unit) (σ0 : σ) (tableName : String) :
    Except String (Out σ) :=
  match conn with
  | .error e => .ok ⟨σ0, [], errEnv e⟩
  | .ok _ =>
    match d.get σ0 masterLookupSql [.s tableName] with
    | .error e => .ok ⟨σ0, [(masterLookupSql, [.s tableName])], errEnv e⟩
    | .ok none =>
      .ok ⟨σ0, [(masterLookupSql, [.s tableName])],
        errEnv ("Table '" ++ tableName ++ "' does not exist")⟩
    | .ok (some _) =>
      let tr1 := [(masterLookupSql, [J.s tableName])]
      match d.all σ0 (tableInfoSql tableName) [] with
      | .error e => .ok ⟨σ0, tr1 ++ [(tableInfoSql tableName, [])], errEnv e⟩
      | .ok columns =>
        let tr2 := tr1 ++ [(tableInfoSql tableName, [])]
        match d.all σ0 (indexListSql tableName) [] with
        | .error e => .ok ⟨σ0, tr2 ++ [(indexListSql tableName, [])], errEnv e⟩
        | .ok indexes =>
          let tr3 := tr2 ++ [(indexListSql tableName, [])]
          match d.all σ0 (foreignKeyListSql tableName) [] with
          | .error e => .ok ⟨σ0, tr3 ++ [(foreignKeyListSql tableName, [])], errEnv e⟩
          | .ok foreignKeys =>
            .ok ⟨σ0, tr3 ++ [(foreignKeyListSql tableName, [])], okEnv (.obj [
              ("tableName", .s tableName),
              ("columns", .arr columns),
              ("indexes", .arr indexes),
              ("foreignKeys", .arr foreignKeys),
              ("columnCount", .i columns.length),
              ("formattedColumns", .s (formatTableInfo columns))])⟩

/-- The template literal of `list-tables` (src/index.ts lines 380–384). -/
def listTablesSql : String :=
  "\n          SELECT name, sql FROM sqlite_master\n          WHERE type='table' AND name NOT LIKE 'sqlite_%'\n          ORDER BY name\n        "

/-- The `list-tables` tool handler (src/index.ts lines 370–396). -/
def listTablesTool {σ} (d : Drv σ) (conn : Except String Unit) (σ0 : σ) :
    Except String (Out σ) :=
  match conn with
  | .error e => .ok ⟨σ0, [], errEnv e⟩
  | .ok _ =>
    match d.all σ0 listTablesSql [] with
    | .error e => .ok ⟨σ0, [(listTablesSql, [])], errEnv e⟩
    | .ok tables => .ok ⟨σ0, [(listTablesSql, [])], okEnv (.arr tables)⟩

/-- A column definition of the `create-table` input schema. -/
structure ColumnSpec where
  name : String
  type : String
  primaryKey : Bool := false
  notNull : Bool := false
  unique : Bool := false
  defaultValue : Option String := none

/-- One clause of the `create-table` builder (src/index.ts lines
419–426): `<name> <type>`, then `PRIMARY KEY`, `NOT NULL`, `UNIQUE`,
`DEFAULT <value>` appended in that order for the truthy fields
(`if (col.defaultValue)` is JS truthiness: an empty string is skipped). -/
def columnDef (col : ColumnSpec) : String :=
  let d0 := col.name ++ " " ++ col.type
  let d1 := if col.primaryKey then d0 ++ " PRIMARY KEY" else d0
  let d2 := if col.notNull then d1 ++ " NOT NULL" else d1
  let d3 := if col.unique then d2 ++ " UNIQUE" else d2
  if jsTruthyStr col.defaultValue then d3 ++ " DEFAULT " ++ col.defaultValue.getD "" else d3

/-- The column clause as the specification words it: `<name> <type>`
followed, in fixed order, by the `PRIMARY KEY`, `NOT NULL`, `UNIQUE` and
`DEFAULT <value>` pieces for the fields that are set — with the JS
truthiness amendment: a `defaultValue` set to the empty string emits no
`DEFAULT` clause. -/
def specColumnClause (col : ColumnSpec) : String :=
  col.name ++ " " ++ col.type ++
  (if col.primaryKey then " PRIMARY KEY" else "") ++
  (if col.notNull then " NOT NULL" else "") ++
  (if col.unique then " UNIQUE" else "") ++
  (match col.defaultValue with
   | some v => if v = "" then "" else " DEFAULT " ++ v
   | none => "")

/-- The `CREATE TABLE` statement of src/index.ts line 428.  The zod
schema gives `ifNotExists` the default `true` when the field is absent
(`z.boolean().optional().default(true)`), modelled by `Option.getD`. -/
def createTableStatement (name : String) (columns : List ColumnSpec) (ifNotExists : Option Bool) : String :=
  "CREATE TABLE " ++ (if ifNotExists.getD true then "IF NOT EXISTS " else "") ++ name ++
  " (" ++ String.intercalate ", " (columns.map columnDef) ++ ")"

/-- The `create-table` tool handler (src/index.ts lines 399–447). -/
def createTableTool {σ} (d : Drv σ) (conn : Except String Unit) (σ0 : σ)
    (name : String) (columns : List ColumnSpec) (ifNotExists : Option Bool) :
    Except String (Out σ) :=
  let stmt := createTableStatement name columns ifNotExists
  match conn with
  | .error e => .ok ⟨σ0, [], errEnv e⟩
  | .ok _ =>
    match d.run σ0 stmt [] with
    | .error e => .ok ⟨σ0, [(stmt, [])], errEnv e⟩
    | .ok (σ1, info) =>
      .ok ⟨σ1, [(stmt, [])], okEnv (.obj [
        ("message", .s ("Table '" ++ name ++ "' created successfully")),
        ("sql", .s stmt),
        ("changes", .i info.changes)])⟩

/-- The `DROP TABLE` statement of src/index.ts line 462 (`ifExists`
defaults to true via zod). -/
def dropTableStatement (name : String) (ifExists : Option Bool) : String :=
  "DROP TABLE " ++ (if ifExists.getD true then "IF EXISTS " else "") ++ name

/-- The `drop-table` tool handler (src/index.ts lines 450–481). -/
def dropTableTool {σ} (d : Drv σ) (conn : Except String Unit) (σ0 : σ)
    (name : String) (ifExists : Option Bool) : Except String (Out σ) :=
  let stmt := dropTableStatement name ifExists
  match conn with
  | .error e => .ok ⟨σ0, [], errEnv e⟩
  | .ok _ =>
    match d.run σ0 stmt [] with
    | .error e => .ok ⟨σ0, [(stmt, [])], errEnv e⟩
    | .ok (σ1, info) =>
      .ok ⟨σ1, [(stmt, [])], okEnv (.obj [
        ("message", .s ("Table '" ++ name ++ "' dropped successfully")),
        ("sql", .s stmt),
        ("changes", .i info.changes)])⟩

/-- The `INSERT` statement of src/index.ts line 500: column list from the
data map's keys in iteration order, one positional placeholder each. -/
def insertStatement (table : String) (data : List (String × J)) : String :=
  "INSERT INTO " ++ table ++ " (" ++ String.intercalate ", " (data.map Prod.fst) ++
  ") VALUES (" ++ String.intercalate ", " (data.map fun _ => "?") ++ ")"

/-- The `insert-record` tool handler (src/index.ts lines 484–520): the
record's values are bound positionally; the response carries
`insertedId = result.lastInsertRowid`. -/
def insertRecordTool {σ} (d : Drv σ) (conn : Except String Unit) (σ0 : σ)
    (table : String) (data : List (String × J)) : Except String (Out σ) :=
  let stmt := insertStatement table data
  let values := data.map Prod.snd
  match conn with
  | .error e => .ok ⟨σ0, [], errEnv e⟩
  | .ok _ =>
    match d.run σ0 stmt values with
    | .error e => .ok ⟨σ0, [(stmt, values)], errEnv e⟩
    | .ok (σ1, info) =>
      .ok ⟨σ1, [(stmt, values)], okEnv (.obj [
        ("message", .s "Record inserted successfully"),
        ("insertedId", .i info.lastInsertRowid),
        ("changes", .i info.changes),
        ("sql", .s stmt)])⟩

/-- The `UPDATE` statement of src/index.ts line 539: `SET` assignments
from the data map's keys with positional placeholders, the raw
caller-supplied WHERE text appended as-is. -/
def updateStatement (table : String) (data : List (String × J)) (wh : String) : String :=
  "UPDATE " ++ table ++ " SET " ++
  String.intercalate ", " (data.map fun kv => kv.1 ++ " = ?") ++ " WHERE " ++ wh

/-- The `update-record` tool handler (src/index.ts lines 523–558): note
that the synthesized statement is *not* passed through
`validateSqlQuery`. -/
def updateRecordTool {σ} (d : Drv σ) (conn : Except String Unit) (σ0 : σ)
    (table : String) (data : List (String × J)) (wh : String) : Except String (Out σ) :=
  let stmt := updateStatement table data wh
  let values := data.map Prod.snd
  match conn with
  | .error e => .ok ⟨σ0, [], errEnv e⟩
  | .ok _ =>
    match d.run σ0 stmt values with
    | .error e => .ok ⟨σ0, [(stmt, values)], errEnv e⟩
    | .ok (σ1, info) =>
      .ok ⟨σ1, [(stmt, values)], okEnv (.obj [
        ("message", .s "Records updated successfully"),
        ("changes", .i info.changes),
        ("sql", .s stmt)])⟩

/-- The `DELETE` statement of src/index.ts line 573. -/
def deleteStatement (table : String) (wh : String) : String :=
  "DELETE FROM " ++ table ++ " WHERE " ++ wh

/-- The `delete-record` tool handler (src/index.ts lines 561–592); like
`update-record` it performs no validation. -/
def deleteRecordTool {σ} (d : Drv σ) (conn : Except String Unit) (σ0 : σ)
    (table : String) (wh : String) : Except String (Out σ) :=
  let stmt := deleteStatement table wh
  match conn with
  | .error e => .ok ⟨σ0, [], errEnv e⟩
  | .ok _ =>
    match d.run σ0 stmt [] with
    | .error e => .ok ⟨σ0, [(stmt, [])], errEnv e⟩
    | .ok (σ1, info) =>
      .ok ⟨σ1, [(stmt, [])], okEnv (.obj [
        ("message", .s "Records deleted successfully"),
        ("changes", .i info.changes),
        ("sql", .s stmt)])⟩

/-- One entry of the transaction tool's per-statement results. -/
structure TxItem where
  sql : String
  changes : Int
  lastInsertRowid : Int

def txItemJson (it : TxItem) : J :=
  .obj [("sql", .s it.sql), ("changes", .i it.changes), ("lastInsertRowid", .i it.lastInsertRowid)]

/-- The function wrapped by `database.transaction(...)` (src/index.ts
lines 606–621): validate then run each statement in order; the first
invalid or failing statement throws (`Invalid SQL: <error>` or the
driver's message), carrying out of the loop the trace of statements
already prepared. -/
def txLoop {σ} (d : Drv σ) :
    List String → σ → List TxItem → List (String × List J) →
    Except (String × List (String × List J)) (σ × List TxItem × List (String × List J))
  | [], st, acc, tr => .ok (st, acc, tr)
  | stmt :: rest, st, acc, tr =>
    let v := validateSqlQuery stmt
    if !v.isValid then
      .error ("Invalid SQL: " ++ v.error.getD "undefined", tr)
    else
      match d.run st stmt [] with
      | .error e => .error (e, tr ++ [(stmt, [])])
      | .ok (st1, info) =>
        txLoop d rest st1 (acc ++ [⟨stmt, info.changes, info.lastInsertRowid⟩]) (tr ++ [(stmt, [])])

/-- The `transaction` tool handler (src/index.ts lines 595–640).
`getDatabase()` is called *outside* the `try` block (line 605), so a
connection-open failure escapes the handler; inside the `try`, a throw
from the wrapped function makes the driver roll back the batch (modelled
by returning the initial state `σ0`) and yields the error envelope. -/
def transactionTool {σ} (d : Drv σ) (conn : Except String Unit) (σ0 : σ)
    (statements : List String) : Except String (Out σ) :=
  match conn with
  | .error e => .error e
  | .ok _ =>
    match txLoop d statements σ0 [] [] with
    | .ok (st1, results, tr) =>
      .ok ⟨st1, tr, okEnv (.obj [
        ("message", .s "Transaction completed successfully"),
        ("results", .arr (results.map txItemJson)),
        ("totalStatements", .i statements.length)])⟩
    | .error (msg, tr) => .ok ⟨σ0, tr, errEnv msg⟩

/-! ## Process configuration -/

/-- `DEFAULT_DB_PATH` (src/index.ts line 16):
`process.env.SQLITE_DB_PATH || "./database.db"`. -/
def defaultDbPath (envVar : Option String) : String :=
  jsOrStr envVar "./database.db"

/-- What process startup does: exit before opening anything, or serve
against a database path. -/
inductive StartAction where
  | exitNoDb
  | serve (dbPath : String)

/-- Modelled from the spec: the CLI entry point is repository code not
under `src/` (the README documents `--db`/`--database`, `--help`,
`--version` and a `dist/cli.js` binary, but the snapshot holds only
`src/index.ts`).  Per the spec, the database path comes from a
command-line flag, else a positional argument, else the environment
variable — in that precedence order — falling back to the fixed default
of src/index.ts line 16; help/version flags short-circuit startup and
exit without opening a connection. -/
def cliStart (helpFlag versionFlag : Bool)
    (flagPath positionalPath envVar : Option String) : StartAction :=
  if helpFlag || versionFlag then .exitNoDb
  else
    match flagPath with
    | some p => .serve p
    | none =>
      match positionalPath with
      | some p => .serve p
      | none => .serve (defaultDbPath envVar)

/-! ## Concrete drivers (for witnesses and counterexamples) -/

/-- A driver over `Nat` states: every mutation bumps the state and
reports one changed row with rowid 7; reads return no rows. -/
def natDrv : Drv Nat where
  run := fun st _ _ => .ok (st + 1, ⟨1, 7⟩)
  all := fun _ _ _ => .ok []
  get := fun _ _ _ => .ok none

/-- Substring test (used to state that an error text does not mention a
statement). -/
def containsSub (needle hay : List Char) : Bool :=
  anyPos (litPre needle) hay

/-! ## Scanner correctness

Each boolean scanner holds exactly when the input splits as the
corresponding declarative predicate demands. -/

theorem bool_not_true {b : Bool} : ((!b) = true) ↔ b = false := by
  cases b <;> simp

theorem litPre_iff : ∀ (a t : List Char), litPre a t = true ↔ ∃ r, t = a ++ r
  | [], t => by simp [litPre]
  | _ :: _, [] => by simp [litPre]
  | x :: xs, y :: ys => by
    simp only [litPre, Bool.and_eq_true, beq_iff_eq, List.cons_append, List.cons.injEq]
    rw [litPre_iff xs ys]
    constructor
    · rintro ⟨rfl, r, rfl⟩
      exact ⟨r, rfl, rfl⟩
    · rintro ⟨r, rfl, rfl⟩
      exact ⟨rfl, r, rfl⟩

theorem drop_len_append : ∀ (a s : List Char), (a ++ s).drop a.length = s
  | [], _ => rfl
  | _ :: xs, s => drop_len_append xs s

theorem afterWsLit_iff (lit : List Char) : ∀ t : List Char,
    afterWsLit lit t = true ↔ ∃ ws r, t = ws ++ (lit ++ r) ∧ AllWs ws
  | [] => by
    show litPre lit [] = true ↔ _
    rw [litPre_iff]
    constructor
    · rintro ⟨r, hr⟩
      exact ⟨[], r, by simpa using hr, fun c hc => absurd hc (List.not_mem_nil c)⟩
    · rintro ⟨ws, r, h, _⟩
      rcases List.append_eq_nil.mp h.symm with ⟨rfl, h2⟩
      exact ⟨r, by simpa using h2.symm⟩
  | c :: rest => by
    show (litPre lit (c :: rest) || (isWsChar c && afterWsLit lit rest)) = true ↔ _
    rw [Bool.or_eq_true, Bool.and_eq_true, litPre_iff, afterWsLit_iff lit rest]
    constructor
    · rintro (⟨r, hr⟩ | ⟨hc, ws, r, rfl, hws⟩)
      · exact ⟨[], r, by simpa using hr, fun x hx => absurd hx (List.not_mem_nil x)⟩
      · refine ⟨c :: ws, r, by simp, ?_⟩
        intro x hx
        rcases List.mem_cons.mp hx with rfl | hx2
        · exact hc
        · exact hws x hx2
    · rintro ⟨ws, r, h, hws⟩
      cases ws with
      | nil => exact Or.inl ⟨r, by simpa using h⟩
      | cons w ws2 =>
        rw [List.cons_append] at h
        injection h with h1 h2
        subst h1
        exact Or.inr ⟨hws c (List.mem_cons_self _ _), ws2, r, h2,
          fun x hx => hws x (List.mem_cons_of_mem _ hx)⟩

theorem afterWsNotAllowed_iff : ∀ t : List Char,
    afterWsNotAllowed t = true ↔ ∃ ws r, t = ws ++ r ∧ AllWs ws ∧ allowedFollows r = false
  | [] => by
    constructor
    · intro _
      exact ⟨[], [], rfl, fun c hc => absurd hc (List.not_mem_nil c), by decide⟩
    · intro _
      decide
  | c :: rest => by
    show (!allowedFollows (c :: rest) || (isWsChar c && afterWsNotAllowed rest)) = true ↔ _
    rw [Bool.or_eq_true, Bool.and_eq_true, bool_not_true, afterWsNotAllowed_iff rest]
    constructor
    · rintro (h | ⟨hc, ws, r, rfl, hws, hr⟩)
      · exact ⟨[], c :: rest, rfl, fun x hx => absurd hx (List.not_mem_nil x), h⟩
      · refine ⟨c :: ws, r, by simp, ?_, hr⟩
        intro x hx
        rcases List.mem_cons.mp hx with rfl | hx2
        · exact hc
        · exact hws x hx2
    · rintro ⟨ws, r, h, hws, hr⟩
      cases ws with
      | nil =>
        have hb : r = c :: rest := by simpa using h.symm
        exact Or.inl (hb ▸ hr)
      | cons w ws2 =>
        rw [List.cons_append] at h
        injection h with h1 h2
        subst h1
        exact Or.inr ⟨hws c (List.mem_cons_self _ _), ws2, r, h2,
          fun x hx => hws x (List.mem_cons_of_mem _ hx), hr⟩

theorem wsPlusNotAllowed_iff : ∀ t : List Char,
    wsPlusNotAllowed t = true ↔
      ∃ ws r, t = ws ++ r ∧ ws ≠ [] ∧ AllWs ws ∧ allowedFollows r = false
  | [] => by
    constructor
    · intro h
      exact Bool.noConfusion h
    · rintro ⟨ws, r, h, hne, -, -⟩
      rcases List.append_eq_nil.mp h.symm with ⟨rfl, -⟩
      exact absurd rfl hne
  | c :: rest => by
    show (isWsChar c && afterWsNotAllowed rest) = true ↔ _
    rw [Bool.and_eq_true, afterWsNotAllowed_iff rest]
    constructor
    · rintro ⟨hc, ws, r, rfl, hws, hr⟩
      refine ⟨c :: ws, r, by simp, by simp, ?_, hr⟩
      intro x hx
      rcases List.mem_cons.mp hx with rfl | hx2
      · exact hc
      · exact hws x hx2
    · rintro ⟨ws, r, h, hne, hws, hr⟩
      cases ws with
      | nil => exact absurd rfl hne
      | cons w ws2 =>
        rw [List.cons_append] at h
        injection h with h1 h2
        subst h1
        exact ⟨hws c (List.mem_cons_self _ _), ws2, r, h2,
          fun x hx => hws x (List.mem_cons_of_mem _ hx), hr⟩

theorem wsPlusLit_iff (lit : List Char) : ∀ t : List Char,
    wsPlusLit lit t = true ↔ ∃ ws r, t = ws ++ (lit ++ r) ∧ ws ≠ [] ∧ AllWs ws
  | [] => by
    constructor
    · intro h
      exact Bool.noConfusion h
    · rintro ⟨ws, r, h, hne, -⟩
      rcases List.append_eq_nil.mp h.symm with ⟨rfl, -⟩
      exact absurd rfl hne
  | c :: rest => by
    show (isWsChar c && afterWsLit lit rest) = true ↔ _
    rw [Bool.and_eq_true, afterWsLit_iff lit rest]
    constructor
    · rintro ⟨hc, ws, r, rfl, hws⟩
      refine ⟨c :: ws, r, by simp, by simp, ?_⟩
      intro x hx
      rcases List.mem_cons.mp hx with rfl | hx2
      · exact hc
      · exact hws x hx2
    · rintro ⟨ws, r, h, hne, hws⟩
      cases ws with
      | nil => exact absurd rfl hne
      | cons w ws2 =>
        rw [List.cons_append] at h
        injection h with h1 h2
        subst h1
        exact ⟨hws c (List.mem_cons_self _ _), ws2, r, h2,
          fun x hx => hws x (List.mem_cons_of_mem _ hx)⟩

theorem anyPos_iff (p : List Char → Bool) : ∀ t : List Char,
    anyPos p t = true ↔ ∃ a b, t = a ++ b ∧ p b = true
  | [] => by
    show p [] = true ↔ _
    constructor
    · intro h
      exact ⟨[], [], rfl, h⟩
    · rintro ⟨a, b, h, hb⟩
      rcases List.append_eq_nil.mp h.symm with ⟨rfl, rfl⟩
      exact hb
  | c :: rest => by
    show (p (c :: rest) || anyPos p rest) = true ↔ _
    rw [Bool.or_eq_true, anyPos_iff p rest]
    constructor
    · rintro (h | ⟨a, b, rfl, hb⟩)
      · exact ⟨[], c :: rest, rfl, h⟩
      · exact ⟨c :: a, b, rfl, hb⟩
    · rintro ⟨a, b, h, hb⟩
      cases a with
      | nil =>
        have hbeq : b = c :: rest := by simpa using h.symm
        exact Or.inl (hbeq ▸ hb)
      | cons a0 as =>
        rw [List.cons_append] at h
        injection h with h1 h2
        subst h1
        exact Or.inr ⟨as, b, h2, hb⟩

theorem scanSelect_iff : ∀ t : List Char,
    scanSelect t = true ↔
      ∃ a r, t = a ++ r ∧ (∀ x ∈ a, isLineTerm x = false) ∧ selectAt r = true
  | [] => by
    constructor
    · intro h
      exact Bool.noConfusion h
    · rintro ⟨a, r, h, -, hr⟩
      rcases List.append_eq_nil.mp h.symm with ⟨rfl, rfl⟩
      exact absurd hr (by decide)
  | c :: rest => by
    show (selectAt (c :: rest) || (!isLineTerm c && scanSelect rest)) = true ↔ _
    rw [Bool.or_eq_true, Bool.and_eq_true, bool_not_true, scanSelect_iff rest]
    constructor
    · rintro (h | ⟨hc, a, r, rfl, ha, hr⟩)
      · exact ⟨[], c :: rest, rfl, fun x hx => absurd hx (List.not_mem_nil x), h⟩
      · refine ⟨c :: a, r, by simp, ?_, hr⟩
        intro x hx
        rcases List.mem_cons.mp hx with rfl | hx2
        · exact hc
        · exact ha x hx2
    · rintro ⟨a, r, h, ha, hr⟩
      cases a with
      | nil =>
        have hbeq : r = c :: rest := by simpa using h.symm
        exact Or.inl (hbeq ▸ hr)
      | cons a0 as =>
        rw [List.cons_append] at h
        injection h with h1 h2
        subst h1
        exact Or.inr ⟨ha c (List.mem_cons_self _ _), as, r, h2,
          fun x hx => ha x (List.mem_cons_of_mem _ hx), hr⟩

theorem selectAt_iff (t : List Char) : selectAt t = true ↔ SpecSelect t := by
  unfold selectAt SpecSelect
  rw [Bool.and_eq_true, litPre_iff]
  constructor
  · rintro ⟨⟨r, rfl⟩, hw⟩
    rw [show (6 : Nat) = selectLit.length from rfl, drop_len_append] at hw
    cases r with
    | nil => exact absurd hw (by decide)
    | cons c rs => exact ⟨c, rs, rfl, hw⟩
  · rintro ⟨c, r, rfl, hc⟩
    refine ⟨⟨c :: r, rfl⟩, ?_⟩
    rw [show (6 : Nat) = selectLit.length from rfl, drop_len_append]
    exact hc

theorem withSelectAt_iff (t : List Char) : withSelectAt t = true ↔ SpecWithSelect t := by
  unfold withSelectAt SpecWithSelect
  rw [Bool.and_eq_true, litPre_iff]
  constructor
  · rintro ⟨⟨s, rfl⟩, hm⟩
    rw [show (4 : Nat) = withLit.length from rfl, drop_len_append] at hm
    cases s with
    | nil => exact absurd hm (by decide)
    | cons c rest =>
      change (isWsChar c && scanSelect rest) = true at hm
      rw [Bool.and_eq_true] at hm
      obtain ⟨hc, hs⟩ := hm
      obtain ⟨a, r, rfl, ha, hsel⟩ := (scanSelect_iff rest).mp hs
      obtain ⟨c2, r2, rfl, hc2⟩ := (selectAt_iff r).mp hsel
      exact ⟨c, a, c2, r2, by rw [List.append_assoc], hc, ha, hc2⟩
  · rintro ⟨c, mid, c2, r, rfl, hc, hmid, hc2⟩
    refine ⟨⟨c :: (mid ++ selectLit ++ c2 :: r), rfl⟩, ?_⟩
    rw [show (4 : Nat) = withLit.length from rfl, drop_len_append]
    change (isWsChar c && scanSelect (mid ++ selectLit ++ c2 :: r)) = true
    rw [Bool.and_eq_true]
    exact ⟨hc, (scanSelect_iff _).mpr ⟨mid, selectLit ++ c2 :: r,
      List.append_assoc mid selectLit (c2 :: r), hmid,
      (selectAt_iff _).mpr ⟨c2, r, rfl, hc2⟩⟩⟩

theorem pragmaReadAt_iff (name : List Char) (t : List Char) :
    pragmaReadAt name t = true ↔ SpecPragmaRead name t := by
  unfold pragmaReadAt SpecPragmaRead
  rw [Bool.and_eq_true, litPre_iff]
  constructor
  · rintro ⟨⟨s, rfl⟩, hw⟩
    rw [show (6 : Nat) = pragmaLit.length from rfl, drop_len_append] at hw
    obtain ⟨ws, r, rfl, hne, hws⟩ := (wsPlusLit_iff name s).mp hw
    exact ⟨ws, r, by simp [List.append_assoc], hne, hws⟩
  · rintro ⟨ws, r, rfl, hne, hws⟩
    simp only [List.append_assoc]
    refine ⟨⟨ws ++ (name ++ r), rfl⟩, ?_⟩
    rw [show (6 : Nat) = pragmaLit.length from rfl, drop_len_append]
    exact (wsPlusLit_iff name _).mpr ⟨ws, r, rfl, hne, hws⟩

theorem pragmaBadAt_iff (t : List Char) :
    pragmaBadAt t = true ↔
      ∃ ws r, t = pragmaLit ++ ws ++ r ∧ ws ≠ [] ∧ AllWs ws ∧ allowedFollows r = false := by
  unfold pragmaBadAt
  rw [Bool.and_eq_true, litPre_iff]
  constructor
  · rintro ⟨⟨s, rfl⟩, hw⟩
    rw [show (6 : Nat) = pragmaLit.length from rfl, drop_len_append] at hw
    obtain ⟨ws, r, rfl, hne, hws, hr⟩ := (wsPlusNotAllowed_iff s).mp hw
    exact ⟨ws, r, by simp [List.append_assoc], hne, hws, hr⟩
  · rintro ⟨ws, r, rfl, hne, hws, hr⟩
    simp only [List.append_assoc]
    refine ⟨⟨ws ++ r, rfl⟩, ?_⟩
    rw [show (6 : Nat) = pragmaLit.length from rfl, drop_len_append]
    exact (wsPlusNotAllowed_iff _).mpr ⟨ws, r, rfl, hne, hws, hr⟩

theorem attachBadAt_iff (t : List Char) :
    attachBadAt t = true ↔
      ∃ ws r, t = attachLit ++ ws ++ databaseLit ++ r ∧ ws ≠ [] ∧ AllWs ws := by
  unfold attachBadAt
  rw [Bool.and_eq_true, litPre_iff]
  constructor
  · rintro ⟨⟨s, rfl⟩, hw⟩
    rw [show (6 : Nat) = attachLit.length from rfl, drop_len_append] at hw
    obtain ⟨ws, r, rfl, hne, hws⟩ := (wsPlusLit_iff databaseLit s).mp hw
    exact ⟨ws, r, by simp [List.append_assoc], hne, hws⟩
  · rintro ⟨ws, r, rfl, hne, hws⟩
    simp only [List.append_assoc]
    refine ⟨⟨ws ++ (databaseLit ++ r), rfl⟩, ?_⟩
    rw [show (6 : Nat) = attachLit.length from rfl, drop_len_append]
    exact (wsPlusLit_iff databaseLit _).mpr ⟨ws, r, rfl, hne, hws⟩

theorem detachBadAt_iff (t : List Char) :
    detachBadAt t = true ↔
      ∃ ws r, t = detachLit ++ ws ++ databaseLit ++ r ∧ ws ≠ [] ∧ AllWs ws := by
  unfold detachBadAt
  rw [Bool.and_eq_true, litPre_iff]
  constructor
  · rintro ⟨⟨s, rfl⟩, hw⟩
    rw [show (6 : Nat) = detachLit.length from rfl, drop_len_append] at hw
    obtain ⟨ws, r, rfl, hne, hws⟩ := (wsPlusLit_iff databaseLit s).mp hw
    exact ⟨ws, r, by simp [List.append_assoc], hne, hws⟩
  · rintro ⟨ws, r, rfl, hne, hws⟩
    simp only [List.append_assoc]
    refine ⟨⟨ws ++ (databaseLit ++ r), rfl⟩, ?_⟩
    rw [show (6 : Nat) = detachLit.length from rfl, drop_len_append]
    exact (wsPlusLit_iff databaseLit _).mpr ⟨ws, r, rfl, hne, hws⟩

theorem dangerousCheck_iff (t : List Char) : dangerousCheck t = true ↔ SpecDanger t := by
  unfold dangerousCheck SpecDanger SpecPragmaBad SpecAttachBad SpecDetachBad
  simp only [Bool.or_eq_true, anyPos_iff]
  constructor
  · rintro ((⟨a, b, rfl, hb⟩ | ⟨a, b, rfl, hb⟩) | ⟨a, b, rfl, hb⟩)
    · obtain ⟨ws, r, rfl, hne, hws, hr⟩ := (pragmaBadAt_iff b).mp hb
      exact Or.inl ⟨a, ws, r, by simp [List.append_assoc], hne, hws, hr⟩
    · obtain ⟨ws, r, rfl, hne, hws⟩ := (attachBadAt_iff b).mp hb
      exact Or.inr (Or.inl ⟨a, ws, r, by simp [List.append_assoc], hne, hws⟩)
    · obtain ⟨ws, r, rfl, hne, hws⟩ := (detachBadAt_iff b).mp hb
      exact Or.inr (Or.inr ⟨a, ws, r, by simp [List.append_assoc], hne, hws⟩)
  · rintro (⟨a, ws, r, rfl, hne, hws, hr⟩ | ⟨a, ws, r, rfl, hne, hws⟩ | ⟨a, ws, r, rfl, hne, hws⟩)
    · exact Or.inl (Or.inl ⟨a, pragmaLit ++ ws ++ r, by simp [List.append_assoc],
        (pragmaBadAt_iff _).mpr ⟨ws, r, rfl, hne, hws, hr⟩⟩)
    · exact Or.inl (Or.inr ⟨a, attachLit ++ ws ++ databaseLit ++ r, by simp [List.append_assoc],
        (attachBadAt_iff _).mpr ⟨ws, r, rfl, hne, hws⟩⟩)
    · exact Or.inr ⟨a, detachLit ++ ws ++ databaseLit ++ r, by simp [List.append_assoc],
        (detachBadAt_iff _).mpr ⟨ws, r, rfl, hne, hws⟩⟩

theorem readOnlyCheck_iff (t : List Char) : readOnlyCheck t = true ↔ SpecReadOnly t := by
  unfold readOnlyCheck SpecReadOnly
  simp only [Bool.or_eq_true, selectAt_iff, withSelectAt_iff, pragmaReadAt_iff]
  tauto


/-! ## Validator-level characterizations -/

theorem validateSqlQuery_of_danger {sql : String} (h : SpecDanger (normalize sql)) :
    validateSqlQuery sql =
      { isValid := false, isReadOnly := false, error := some "Dangerous SQL operation detected" } := by
  unfold validateSqlQuery
  rw [if_pos ((dangerousCheck_iff _).mpr h)]

theorem validateSqlQuery_of_not_danger {sql : String} (h : ¬ SpecDanger (normalize sql)) :
    validateSqlQuery sql =
      { isValid := true, isReadOnly := readOnlyCheck (normalize sql), error := none } := by
  unfold validateSqlQuery
  rw [if_neg (fun hb => h ((dangerousCheck_iff _).mp hb))]

/-! ## Tool-handler lemmas -/

theorem queryTool_of_invalid {σ} (d : Drv σ) (conn : Except String Unit) (σ0 : σ)
    {sql msg : String}
    (h : validateSqlQuery sql = { isValid := false, isReadOnly := false, error := some msg })
    (hm : ¬ msg = "") :
    queryTool d conn σ0 sql = .ok ⟨σ0, [], errEnv msg⟩ := by
  unfold queryTool
  rw [h]
  simp [jsOrStr, hm]

theorem executeTool_of_invalid {σ} (d : Drv σ) (conn : Except String Unit) (σ0 : σ)
    {sql msg : String}
    (h : validateSqlQuery sql = { isValid := false, isReadOnly := false, error := some msg })
    (hm : ¬ msg = "") :
    executeTool d conn σ0 sql = .ok ⟨σ0, [], errEnv msg⟩ := by
  unfold executeTool
  rw [h]
  simp [jsOrStr, hm]

theorem txLoop_trace_valid {σ} (d : Drv σ) : ∀ (stmts : List String) (st : σ)
    (acc : List TxItem) (tr : List (String × List J)),
    (∀ p ∈ tr, (validateSqlQuery p.1).isValid = true) →
    ((∀ st2 res tr2, txLoop d stmts st acc tr = .ok (st2, res, tr2) →
        ∀ p ∈ tr2, (validateSqlQuery p.1).isValid = true) ∧
     (∀ msg tr2, txLoop d stmts st acc tr = .error (msg, tr2) →
        ∀ p ∈ tr2, (validateSqlQuery p.1).isValid = true))
  | [], st, acc, tr, htr => by
    constructor
    · intro st2 res tr2 h
      simp only [txLoop] at h
      injection h with h1
      injection h1 with h2 h3
      injection h3 with h4 h5
      subst h5
      exact htr
    · intro msg tr2 h
      simp only [txLoop] at h
      exact absurd h (by simp)
  | stmt :: rest, st, acc, tr, htr => by
    cases hv : (validateSqlQuery stmt).isValid with
    | false =>
      constructor
      · intro st2 res tr2 h
        simp [txLoop, hv] at h
      · intro msg tr2 h
        simp only [txLoop, hv, Bool.not_false, if_pos] at h
        injection h with h1
        injection h1 with h2 h3
        subst h3
        exact htr
    | true =>
      have htr2 : ∀ p ∈ tr ++ [(stmt, ([] : List J))], (validateSqlQuery p.1).isValid = true := by
        intro p hp
        rcases List.mem_append.mp hp with h1 | h2
        · exact htr p h1
        · rw [List.mem_singleton.mp h2]
          exact hv
      cases hrun : d.run st stmt [] with
      | error e =>
        constructor
        · intro st2 res tr2 h
          simp [txLoop, hv, hrun] at h
        · intro msg tr2 h
          simp only [txLoop, hv, Bool.not_true, Bool.false_eq_true, if_false, hrun] at h
          injection h with h1
          injection h1 with h2 h3
          subst h3
          exact htr2
      | ok p =>
        obtain ⟨st1, info⟩ := p
        have IH := txLoop_trace_valid d rest st1
          (acc ++ [⟨stmt, info.changes, info.lastInsertRowid⟩]) (tr ++ [(stmt, [])]) htr2
        constructor
        · intro st2 res tr2 h
          simp only [txLoop, hv, Bool.not_true, Bool.false_eq_true, if_false, hrun] at h
          exact IH.1 st2 res tr2 h
        · intro msg tr2 h
          simp only [txLoop, hv, Bool.not_true, Bool.false_eq_true, if_false, hrun] at h
          exact IH.2 msg tr2 h

theorem txLoop_error_of_invalid {σ} (d : Drv σ) : ∀ (stmts : List String) (st : σ)
    (acc : List TxItem) (tr : List (String × List J)),
    (∃ s ∈ stmts, (validateSqlQuery s).isValid = false) →
    ∃ msg tr2, txLoop d stmts st acc tr = .error (msg, tr2)
  | [], _, _, _, h => absurd h (by simp)
  | stmt :: rest, st, acc, tr, h => by
    cases hv : (validateSqlQuery stmt).isValid with
    | false =>
      refine ⟨"Invalid SQL: " ++ (validateSqlQuery stmt).error.getD "undefined", tr, ?_⟩
      simp [txLoop, hv]
    | true =>
      have hrest : ∃ s ∈ rest, (validateSqlQuery s).isValid = false := by
        obtain ⟨s, hs, hinv⟩ := h
        rcases List.mem_cons.mp hs with rfl | hs2
        · rw [hv] at hinv
          exact Bool.noConfusion hinv
        · exact ⟨s, hs2, hinv⟩
      cases hrun : d.run st stmt [] with
      | error e =>
        refine ⟨e, tr ++ [(stmt, [])], ?_⟩
        simp [txLoop, hv, hrun]
      | ok p =>
        obtain ⟨st1, info⟩ := p
        obtain ⟨msg, tr2, htx⟩ := txLoop_error_of_invalid d rest st1
          (acc ++ [⟨stmt, info.changes, info.lastInsertRowid⟩]) (tr ++ [(stmt, [])]) hrest
        refine ⟨msg, tr2, ?_⟩
        simp only [txLoop, hv, Bool.not_true, Bool.false_eq_true, if_false, hrun]
        exact htx

theorem transactionTool_rollback {σ} (d : Drv σ) (σ0 : σ) (stmts : List String) (out : Out σ)
    (h : transactionTool d (.ok ()) σ0 stmts = .ok out) (he : out.resp.isError = true) :
    out.state = σ0 ∧ ∃ msg, out.resp = errEnv msg := by
  unfold transactionTool at h
  cases htx : txLoop d stmts σ0 [] [] with
  | ok p =>
    obtain ⟨st1, res, tr⟩ := p
    rw [htx] at h
    injection h with h1
    subst h1
    exact absurd he (by simp [okEnv])
  | error p =>
    obtain ⟨msg, tr⟩ := p
    rw [htx] at h
    injection h with h1
    subst h1
    exact ⟨rfl, msg, rfl⟩

theorem transactionTool_invalid_rolls_back {σ} (d : Drv σ) (σ0 : σ) (stmts : List String)
    (h : ∃ s ∈ stmts, (validateSqlQuery s).isValid = false) :
    ∃ msg tr, transactionTool d (.ok ()) σ0 stmts = .ok ⟨σ0, tr, errEnv msg⟩ ∧
      ∀ p ∈ tr, (validateSqlQuery p.1).isValid = true := by
  obtain ⟨msg, tr, htx⟩ := txLoop_error_of_invalid d stmts σ0 [] [] h
  have hval := (txLoop_trace_valid d stmts σ0 [] [] (by simp)).2 msg tr htx
  refine ⟨msg, tr, ?_, hval⟩
  unfold transactionTool
  rw [htx]

theorem transactionTool_trace_valid {σ} (d : Drv σ) (conn : Except String Unit) (σ0 : σ)
    (stmts : List String) (out : Out σ)
    (h : transactionTool d conn σ0 stmts = .ok out) :
    ∀ p ∈ out.trace, (validateSqlQuery p.1).isValid = true := by
  unfold transactionTool at h
  cases conn with
  | error e => exact absurd h (by simp)
  | ok u =>
    cases htx : txLoop d stmts σ0 [] [] with
    | ok p =>
      obtain ⟨st1, res, tr⟩ := p
      rw [htx] at h
      injection h with h1
      subst h1
      exact (txLoop_trace_valid d stmts σ0 [] [] (by simp)).1 st1 res tr htx
    | error p =>
      obtain ⟨msg, tr⟩ := p
      rw [htx] at h
      injection h with h1
      subst h1
      exact (txLoop_trace_valid d stmts σ0 [] [] (by simp)).2 msg tr htx

theorem queryTool_total {σ} (d : Drv σ) (conn : Except String Unit) (σ0 : σ) (sql : String) :
    ∃ o, queryTool d conn σ0 sql = .ok o := by
  unfold queryTool
  try dsimp only
  repeat' split
  all_goals exact ⟨_, rfl⟩

theorem executeTool_total {σ} (d : Drv σ) (conn : Except String Unit) (σ0 : σ) (sql : String) :
    ∃ o, executeTool d conn σ0 sql = .ok o := by
  unfold executeTool
  try dsimp only
  repeat' split
  all_goals exact ⟨_, rfl⟩

theorem describeTable_total {σ} (d : Drv σ) (conn : Except String Unit) (σ0 : σ)
    (tableName : String) : ∃ o, describeTable d conn σ0 tableName = .ok o := by
  unfold describeTable
  try dsimp only
  repeat' split
  all_goals exact ⟨_, rfl⟩

theorem listTablesTool_total {σ} (d : Drv σ) (conn : Except String Unit) (σ0 : σ) :
    ∃ o, listTablesTool d conn σ0 = .ok o := by
  unfold listTablesTool
  try dsimp only
  repeat' split
  all_goals exact ⟨_, rfl⟩

theorem createTableTool_total {σ} (d : Drv σ) (conn : Except String Unit) (σ0 : σ)
    (name : String) (columns : List ColumnSpec) (ifNotExists : Option Bool) :
    ∃ o, createTableTool d conn σ0 name columns ifNotExists = .ok o := by
  unfold createTableTool
  try dsimp only
  repeat' split
  all_goals exact ⟨_, rfl⟩

theorem dropTableTool_total {σ} (d : Drv σ) (conn : Except String Unit) (σ0 : σ)
    (name : String) (ifExists : Option Bool) :
    ∃ o, dropTableTool d conn σ0 name ifExists = .ok o := by
  unfold dropTableTool
  try dsimp only
  repeat' split
  all_goals exact ⟨_, rfl⟩

theorem insertRecordTool_total {σ} (d : Drv σ) (conn : Except String Unit) (σ0 : σ)
    (table : String) (data : List (String × J)) :
    ∃ o, insertRecordTool d conn σ0 table data = .ok o := by
  unfold insertRecordTool
  try dsimp only
  repeat' split
  all_goals exact ⟨_, rfl⟩

theorem updateRecordTool_total {σ} (d : Drv σ) (conn : Except String Unit) (σ0 : σ)
    (table : String) (data : List (String × J)) (wh : String) :
    ∃ o, updateRecordTool d conn σ0 table data wh = .ok o := by
  unfold updateRecordTool
  try dsimp only
  repeat' split
  all_goals exact ⟨_, rfl⟩

theorem deleteRecordTool_total {σ} (d : Drv σ) (conn : Except String Unit) (σ0 : σ)
    (table : String) (wh : String) :
    ∃ o, deleteRecordTool d conn σ0 table wh = .ok o := by
  unfold deleteRecordTool
  try dsimp only
  repeat' split
  all_goals exact ⟨_, rfl⟩

theorem columnDef_eq_spec (col : ColumnSpec) : columnDef col = specColumnClause col := by
  rcases col with ⟨n, ty, pk, nn, uq, dv⟩
  unfold columnDef specColumnClause
  rcases dv with _ | v
  · cases pk <;> cases nn <;> cases uq <;>
      (simp only [String.append_assoc]
       simp [jsTruthyStr, String.append_empty, String.empty_append]
       try simp [String.append_assoc])
  · rcases eq_or_ne v "" with rfl | hv
    · cases pk <;> cases nn <;> cases uq <;>
        (simp only [String.append_assoc]
         simp [jsTruthyStr, String.append_empty, String.empty_append]
         try simp [String.append_assoc])
    · cases pk <;> cases nn <;> cases uq <;>
        (simp only [String.append_assoc]
         simp [jsTruthyStr, String.append_empty, String.empty_append, hv]
         try simp [String.append_assoc]
         try rw [show (" NOT NULL UNIQUE" : String) = " NOT NULL" ++ " UNIQUE" from rfl,
           String.append_assoc]
         try rw [show (" PRIMARY KEY UNIQUE" : String) = " PRIMARY KEY" ++ " UNIQUE" from rfl,
           String.append_assoc]
         try rw [show (" PRIMARY KEY NOT NULL" : String) = " PRIMARY KEY" ++ " NOT NULL" from rfl,
           String.append_assoc]
         try rw [show (" PRIMARY KEY NOT NULL UNIQUE" : String) =
             " PRIMARY KEY" ++ (" NOT NULL" ++ " UNIQUE") from rfl,
           String.append_assoc, String.append_assoc])


/-! ## Claim theorems -/

/-- C1 (counterexample): the normalized form of `select*from t` starts
with `select`, yet the Validator classifies the (non-rejected) text as
mutating, not read-only — the read-only pattern requires a whitespace
character after the keyword. -/
theorem C1_counterexample :
    litPre selectLit (normalize "select*from t") = true ∧
      validateSqlQuery "select*from t" =
        { isValid := true, isReadOnly := false, error := none } :=
  ⟨rfl, rfl⟩

/-- C1 (amended): a non-rejected SQL text is classified read-only exactly
when its normalized form matches a read-only prefix pattern: `select`
followed by whitespace; `with`, whitespace, then (with no intervening
line terminator) `select` followed by whitespace; or `pragma`,
whitespace, then one of the three allow-listed names as a prefix.  Every
other non-rejected text is mutating. -/
theorem C1_classification (sql : String) (h : (validateSqlQuery sql).isValid = true) :
    (validateSqlQuery sql).isReadOnly = true ↔ SpecReadOnly (normalize sql) := by
  by_cases hd : SpecDanger (normalize sql)
  · rw [validateSqlQuery_of_danger hd] at h
    exact absurd h (by simp)
  · rw [validateSqlQuery_of_not_danger hd]
    exact readOnlyCheck_iff _

/-- C1 witness: the classification theorem applied at `SELECT 1 AS one`. -/
theorem C1_classification_witness :
    (validateSqlQuery "SELECT 1 AS one").isValid = true ∧
      ((validateSqlQuery "SELECT 1 AS one").isReadOnly = true ↔
        SpecReadOnly (normalize "SELECT 1 AS one")) :=
  ⟨rfl, C1_classification "SELECT 1 AS one" rfl⟩

/-- C2 (counterexample): the claim says a disallowed-pattern statement is
never passed to the driver by any tool, but `update-record` performs no
validation: with WHERE text `b = 'attach database'` the synthesized
statement matches the attach-database pattern (the Validator would
reject it), yet the handler hands exactly that statement to the driver
and executes it. -/
theorem C2_counterexample :
    (validateSqlQuery (updateStatement "t" [("a", J.i 1)] "b = 'attach database'")).isValid
        = false ∧
    updateRecordTool natDrv (.ok ()) 0 "t" [("a", J.i 1)] "b = 'attach database'" =
      .ok ⟨1, [(updateStatement "t" [("a", J.i 1)] "b = 'attach database'", [J.i 1])],
        okEnv (.obj [
          ("message", .s "Records updated successfully"),
          ("changes", .i 1),
          ("sql", .s (updateStatement "t" [("a", J.i 1)] "b = 'attach database'"))])⟩ :=
  ⟨rfl, rfl⟩

/-- C2 (amended): for every SQL text matching a disallowed pattern — a
`PRAGMA` whose continuation is outside the allow-list, or
`ATTACH`/`DETACH DATABASE` — the Validator returns invalid with the
human-readable reason, and the statement is never passed to the driver
by the raw-SQL tools: `query` and `execute` return the error envelope
without a driver call, and the `transaction` tool never hands it to
`prepare` (the structured builders, which synthesize their own
statements without validation, are the exception the counterexample
shows). -/
theorem C2_dangerous_rejected (sql : String) (h : SpecDanger (normalize sql)) :
    validateSqlQuery sql =
      { isValid := false, isReadOnly := false,
        error := some "Dangerous SQL operation detected" } ∧
    (∀ {σ} (d : Drv σ) (conn : Except String Unit) (σ0 : σ),
      queryTool d conn σ0 sql = .ok ⟨σ0, [], errEnv "Dangerous SQL operation detected"⟩ ∧
      executeTool d conn σ0 sql = .ok ⟨σ0, [], errEnv "Dangerous SQL operation detected"⟩) ∧
    (∀ {σ} (d : Drv σ) (conn : Except String Unit) (σ0 : σ) (stmts : List String) (out : Out σ),
      transactionTool d conn σ0 stmts = .ok out → sql ∉ out.trace.map Prod.fst) := by
  have hval := validateSqlQuery_of_danger h
  refine ⟨hval, fun d conn σ0 =>
    ⟨queryTool_of_invalid d conn σ0 hval (by decide),
     executeTool_of_invalid d conn σ0 hval (by decide)⟩, ?_⟩
  intro σ d conn σ0 stmts out htx hmem
  obtain ⟨pr, hp, hp1⟩ := List.mem_map.mp hmem
  have hvp := transactionTool_trace_valid d conn σ0 stmts out htx pr hp
  rw [hp1, hval] at hvp
  exact Bool.noConfusion hvp

/-- C2 witness: the rejection theorem applied at `ATTACH DATABASE other AS o`. -/
theorem C2_dangerous_rejected_witness :
    SpecDanger (normalize "ATTACH DATABASE other AS o") ∧
      queryTool natDrv (.ok ()) 0 "ATTACH DATABASE other AS o" =
        .ok ⟨0, [], errEnv "Dangerous SQL operation detected"⟩ := by
  have h : SpecDanger (normalize "ATTACH DATABASE other AS o") :=
    Or.inr (Or.inl ⟨[], [' '], " other as o".data, by decide, by decide,
      by unfold AllWs; decide⟩)
  exact ⟨h, ((C2_dangerous_rejected "ATTACH DATABASE other AS o" h).2.1 natDrv (.ok ()) 0).1⟩

/-- C3: whenever the Validator classifies a text as valid but mutating,
the `query` tool returns the fixed read-only-refusal error envelope, hands
nothing to the driver, and leaves the database state unchanged — for
every driver, connection state and initial database state. -/
theorem C3_query_refuses_mutating (sql : String)
    (hv : (validateSqlQuery sql).isValid = true)
    (hro : (validateSqlQuery sql).isReadOnly = false) :
    ∀ {σ} (d : Drv σ) (conn : Except String Unit) (σ0 : σ),
      queryTool d conn σ0 sql =
        .ok ⟨σ0, [],
          errEnv "Only read-only queries are allowed. Use 'execute' tool for write operations."⟩ := by
  intro σ d conn σ0
  rcases hval : validateSqlQuery sql with ⟨iv, iro, err⟩
  rw [hval] at hv hro
  obtain rfl : iv = true := hv
  obtain rfl : iro = false := hro
  simp [queryTool, hval]

/-- C3 witness: the refusal theorem applied at `UPDATE t SET x=1`. -/
theorem C3_query_refuses_mutating_witness :
    (validateSqlQuery "UPDATE t SET x=1").isValid = true ∧
    (validateSqlQuery "UPDATE t SET x=1").isReadOnly = false ∧
    queryTool natDrv (.ok ()) 0 "UPDATE t SET x=1" =
      .ok ⟨0, [],
        errEnv "Only read-only queries are allowed. Use 'execute' tool for write operations."⟩ :=
  ⟨rfl, rfl, C3_query_refuses_mutating "UPDATE t SET x=1" rfl rfl natDrv (.ok ()) 0⟩

/-- C4 (counterexample): two batches whose failing statements differ in
both text and position (`pragma foo` at position 2 after a successful
insert, `pragma bar` at position 1) produce the identical fixed error
envelope, whose text mentions neither the failing statement nor any
position — so the single error does not describe them.  Both calls roll
the state back to the initial 0. -/
theorem C4_counterexample :
    transactionTool natDrv (.ok ()) 0 ["insert into t(a) values (1)", "pragma foo"] =
      .ok ⟨0, [("insert into t(a) values (1)", [])],
        errEnv "Invalid SQL: Dangerous SQL operation detected"⟩ ∧
    transactionTool natDrv (.ok ()) 0 ["pragma bar"] =
      .ok ⟨0, [], errEnv "Invalid SQL: Dangerous SQL operation detected"⟩ ∧
    containsSub "pragma foo".data
      "Database error: Invalid SQL: Dangerous SQL operation detected".data = false ∧
    containsSub "2".data
      "Database error: Invalid SQL: Dangerous SQL operation detected".data = false :=
  ⟨rfl, rfl, rfl, rfl⟩

/-- C4 (amended): when any statement of a transaction batch is rejected
by the Validator or fails in the driver, the whole batch is rolled back
(the final state equals the state before the call), the caller receives
a single error envelope (carrying the validator's fixed message or the
driver's message, without the failing statement's position), no partial
per-statement results are returned, and no invalid statement reaches the
driver. -/
theorem C4_transaction_atomicity :
    (∀ {σ} (d : Drv σ) (σ0 : σ) (stmts : List String) (out : Out σ),
       transactionTool d (.ok ()) σ0 stmts = .ok out → out.resp.isError = true →
       out.state = σ0 ∧ ∃ msg, out.resp = errEnv msg) ∧
    (∀ {σ} (d : Drv σ) (σ0 : σ) (stmts : List String),
       (∃ st ∈ stmts, (validateSqlQuery st).isValid = false) →
       ∃ msg tr, transactionTool d (.ok ()) σ0 stmts = .ok ⟨σ0, tr, errEnv msg⟩ ∧
         ∀ pr ∈ tr, (validateSqlQuery pr.1).isValid = true) :=
  ⟨fun d σ0 stmts out h he => transactionTool_rollback d σ0 stmts out h he,
   fun d σ0 stmts h => transactionTool_invalid_rolls_back d σ0 stmts h⟩

/-- C4 witness: the atomicity theorem applied to a batch whose only
statement is rejected. -/
theorem C4_transaction_atomicity_witness :
    ∃ msg tr, transactionTool natDrv (.ok ()) 0 ["pragma bar"] = .ok ⟨0, tr, errEnv msg⟩ ∧
      ∀ pr ∈ tr, (validateSqlQuery pr.1).isValid = true :=
  C4_transaction_atomicity.2 natDrv 0 ["pragma bar"] ⟨"pragma bar", by simp, rfl⟩

/-- C5: every tool handler except `transaction` catches every failure —
including a connection-open failure and any driver error — and returns a
normal envelope, for any driver and any connection state; the
`transaction` handler, whose `getDatabase()` call sits outside its
`try`, lets a connection-open failure escape as an unhandled exception,
contradicting the claim. -/
theorem C5_handlers_catch_except_transaction :
    ∀ {σ} (d : Drv σ) (conn : Except String Unit) (σ0 : σ)
      (e sql tableName nm tb wh : String) (cols : List ColumnSpec)
      (ifne ife : Option Bool) (data : List (String × J)) (stmts : List String),
      (∃ o, queryTool d conn σ0 sql = .ok o) ∧
      (∃ o, executeTool d conn σ0 sql = .ok o) ∧
      (∃ o, describeTable d conn σ0 tableName = .ok o) ∧
      (∃ o, listTablesTool d conn σ0 = .ok o) ∧
      (∃ o, createTableTool d conn σ0 nm cols ifne = .ok o) ∧
      (∃ o, dropTableTool d conn σ0 nm ife = .ok o) ∧
      (∃ o, insertRecordTool d conn σ0 tb data = .ok o) ∧
      (∃ o, updateRecordTool d conn σ0 tb data wh = .ok o) ∧
      (∃ o, deleteRecordTool d conn σ0 tb wh = .ok o) ∧
      transactionTool d (.error e) σ0 stmts = .error e := by
  intro σ d conn σ0 e sql tableName nm tb wh cols ifne ife data stmts
  exact ⟨queryTool_total d conn σ0 sql, executeTool_total d conn σ0 sql,
    describeTable_total d conn σ0 tableName, listTablesTool_total d conn σ0,
    createTableTool_total d conn σ0 nm cols ifne, dropTableTool_total d conn σ0 nm ife,
    insertRecordTool_total d conn σ0 tb data, updateRecordTool_total d conn σ0 tb data wh,
    deleteRecordTool_total d conn σ0 tb wh, rfl⟩

/-- C6: `insert-record` builds
`INSERT INTO <table> (<cols>) VALUES (<placeholders>)` with the column
list equal to the data map's keys in iteration order, binds the values
positionally, makes exactly that one driver call, and on success reports
`insertedId` equal to the driver's `lastInsertRowid` — so the rows added
are exactly what that single statement adds. -/
theorem C6_insert_record {σ} (d : Drv σ) (σ0 σ1 : σ) (table : String)
    (data : List (String × J)) (info : RunInfo)
    (_hne : data ≠ [])
    (hrun : d.run σ0 (insertStatement table data) (data.map Prod.snd) = .ok (σ1, info)) :
    insertStatement table data =
      "INSERT INTO " ++ table ++ " (" ++ String.intercalate ", " (data.map Prod.fst) ++
        ") VALUES (" ++ String.intercalate ", " (data.map fun _ => "?") ++ ")" ∧
    insertRecordTool d (.ok ()) σ0 table data =
      .ok ⟨σ1, [(insertStatement table data, data.map Prod.snd)], okEnv (.obj [
        ("message", .s "Record inserted successfully"),
        ("insertedId", .i info.lastInsertRowid),
        ("changes", .i info.changes),
        ("sql", .s (insertStatement table data))])⟩ := by
  refine ⟨rfl, ?_⟩
  simp [insertRecordTool, hrun]

/-- C6 witness: the insert theorem applied at table `t`,
data `{a: 1, b: "x"}` against a concrete driver. -/
theorem C6_insert_record_witness :
    ([("a", J.i 1), ("b", J.s "x")] : List (String × J)) ≠ [] ∧
    natDrv.run 0 (insertStatement "t" [("a", J.i 1), ("b", J.s "x")])
        ([("a", J.i 1), ("b", J.s "x")].map Prod.snd) = .ok (1, ⟨1, 7⟩) ∧
    insertStatement "t" [("a", J.i 1), ("b", J.s "x")] =
      "INSERT INTO t (a, b) VALUES (?, ?)" ∧
    insertRecordTool natDrv (.ok ()) 0 "t" [("a", J.i 1), ("b", J.s "x")] =
      .ok ⟨1, [("INSERT INTO t (a, b) VALUES (?, ?)", [J.i 1, J.s "x"])], okEnv (.obj [
        ("message", .s "Record inserted successfully"),
        ("insertedId", .i 7),
        ("changes", .i 1),
        ("sql", .s "INSERT INTO t (a, b) VALUES (?, ?)")])⟩ := by
  have h := C6_insert_record natDrv 0 1 "t" [("a", J.i 1), ("b", J.s "x")] ⟨1, 7⟩
    (by simp) rfl
  exact ⟨by simp, rfl, h.1, h.2⟩

/-- C7 (counterexample): a column whose `defaultValue` field is set to
the empty string gets no `DEFAULT` clause — JS truthiness skips it — so
"for whichever of those flags/fields are set" fails as stated. -/
theorem C7_counterexample :
    columnDef ⟨"c", "TEXT", false, false, false, some ""⟩ = "c TEXT" ∧
    containsSub "DEFAULT".data ("c TEXT").data = false :=
  ⟨rfl, rfl⟩

/-- C7 (amended): the builder emits `<name> <type>` then, in fixed order,
`PRIMARY KEY`, `NOT NULL`, `UNIQUE` for the flags that are set, and
`DEFAULT <value>` when `defaultValue` is set to a non-empty string; the
clauses are joined with commas and wrapped in
`CREATE TABLE [IF NOT EXISTS] <name> (...)`; an omitted `ifNotExists`
behaves as true. -/
theorem C7_create_table_statement :
    (∀ (name : String) (cols : List ColumnSpec) (ifNE : Option Bool),
      createTableStatement name cols ifNE =
        "CREATE TABLE " ++ (if ifNE.getD true then "IF NOT EXISTS " else "") ++ name ++
          " (" ++ String.intercalate ", " (cols.map specColumnClause) ++ ")") ∧
    (∀ (name : String) (cols : List ColumnSpec),
      createTableStatement name cols none = createTableStatement name cols (some true)) := by
  constructor
  · intro name cols ifNE
    unfold createTableStatement
    rw [funext columnDef_eq_spec]
  · intro name cols
    rfl

/-- C8: the CLI layer (modelled from the spec; the wrapper binary is not
in the source snapshot) resolves the database path from the flag, else
the positional argument, else the environment variable, else the fixed
default `./database.db` of src/index.ts line 16 (the environment step
uses JS `||`, so an empty value falls through); help/version flags exit
before any path is resolved or a connection opened. -/
theorem C8_cli_path_resolution :
    (∀ (f : String) (p env : Option String), cliStart false false (some f) p env = .serve f) ∧
    (∀ (q : String) (env : Option String), cliStart false false none (some q) env = .serve q) ∧
    (∀ env : Option String, cliStart false false none none env = .serve (defaultDbPath env)) ∧
    (∀ s : String, defaultDbPath (some s) = if s = "" then "./database.db" else s) ∧
    defaultDbPath none = "./database.db" ∧
    (∀ (vf : Bool) (fp pp env : Option String), cliStart true vf fp pp env = .exitNoDb) ∧
    (∀ (hf : Bool) (fp pp env : Option String), cliStart hf true fp pp env = .exitNoDb) := by
  refine ⟨fun f p env => rfl, fun q env => rfl, fun env => rfl, fun st => rfl, rfl,
    fun vf fp pp env => rfl, fun hf fp pp env => ?_⟩
  cases hf <;> rfl

/-- C9: when the parameter-bound `sqlite_master` lookup finds no table of
the given name, `describe-table` returns the error envelope carrying
`Table '<tableName>' does not exist`, the only statement handed to the
driver is that parameter-bound lookup (no introspection pragma runs),
and the database state is unchanged. -/
theorem C9_describe_missing_table {σ} (d : Drv σ) (σ0 : σ) (tableName : String)
    (h : d.get σ0 masterLookupSql [J.s tableName] = .ok none) :
    describeTable d (.ok ()) σ0 tableName =
      .ok ⟨σ0, [(masterLookupSql, [J.s tableName])],
        errEnv ("Table '" ++ tableName ++ "' does not exist")⟩ := by
  unfold describeTable
  rw [h]

/-- C9 witness: the describe-table theorem applied at a missing table
name against a concrete driver. -/
theorem C9_describe_missing_table_witness :
    natDrv.get 0 masterLookupSql [J.s "missing"] = .ok none ∧
    describeTable natDrv (.ok ()) 0 "missing" =
      .ok ⟨0, [(masterLookupSql, [J.s "missing"])],
        errEnv "Table 'missing' does not exist"⟩ :=
  ⟨rfl, C9_describe_missing_table natDrv 0 "missing" rfl⟩

/-- C10: the disallowed-pattern check is unanchored: whenever the
normalized text contains — at any position, a string literal of an
otherwise read-only SELECT included — `pragma` plus whitespace not
followed by an allow-listed name, or `attach`/`detach` plus whitespace
plus `database`, the Validator returns invalid, `query` and `execute`
refuse without a driver call, and `transaction` never hands the text to
the driver. -/
theorem C10_unanchored_rejection (sql : String) (a ws r : List Char)
    (h : normalize sql = a ++ pragmaLit ++ ws ++ r ∧ allowedFollows r = false ∨
         normalize sql = a ++ attachLit ++ ws ++ databaseLit ++ r ∨
         normalize sql = a ++ detachLit ++ ws ++ databaseLit ++ r)
    (hne : ws ≠ []) (hws : AllWs ws) :
    (validateSqlQuery sql).isValid = false ∧
    (∀ {σ} (d : Drv σ) (conn : Except String Unit) (σ0 : σ),
       queryTool d conn σ0 sql = .ok ⟨σ0, [], errEnv "Dangerous SQL operation detected"⟩ ∧
       executeTool d conn σ0 sql = .ok ⟨σ0, [], errEnv "Dangerous SQL operation detected"⟩) ∧
    (∀ {σ} (d : Drv σ) (conn : Except String Unit) (σ0 : σ) (stmts : List String) (out : Out σ),
       transactionTool d conn σ0 stmts = .ok out → sql ∉ out.trace.map Prod.fst) := by
  have hd : SpecDanger (normalize sql) := by
    rcases h with ⟨heq, hr⟩ | heq | heq
    · exact Or.inl ⟨a, ws, r, heq, hne, hws, hr⟩
    · exact Or.inr (Or.inl ⟨a, ws, r, heq, hne, hws⟩)
    · exact Or.inr (Or.inr ⟨a, ws, r, heq, hne, hws⟩)
  have hval := validateSqlQuery_of_danger hd
  refine ⟨by rw [hval], fun d conn σ0 =>
    ⟨queryTool_of_invalid d conn σ0 hval (by decide),
     executeTool_of_invalid d conn σ0 hval (by decide)⟩, ?_⟩
  intro σ d conn σ0 stmts out htx hmem
  obtain ⟨pr, hp, hp1⟩ := List.mem_map.mp hmem
  have hvp := transactionTool_trace_valid d conn σ0 stmts out htx pr hp
  rw [hp1, hval] at hvp
  exact Bool.noConfusion hvp

/-- C10 witness: the unanchored-rejection theorem applied to a SELECT
carrying `pragma x` inside a string literal. -/
theorem C10_unanchored_rejection_witness :
    normalize "select 'pragma x' from t" =
      "select '".data ++ pragmaLit ++ [' '] ++ "x' from t".data ∧
    (validateSqlQuery "select 'pragma x' from t").isValid = false := by
  have h := C10_unanchored_rejection "select 'pragma x' from t" "select '".data [' ']
    "x' from t".data (Or.inl ⟨by decide, by decide⟩) (by decide) (by unfold AllWs; decide)
  exact ⟨by decide, h.1⟩

end McpSqlite
